import Mathlib

/-!
# Verification of the rosu-pp Go binding (`example.go`)

The binding is marshalling code around a native library.  The native library
is not part of the source; every native function is therefore a field of the
structure `Native`, over an arbitrary native world `W` and an arbitrary result
type `R`, and every theorem holds for all native behaviours.  Each native call
the binding makes is logged, with its arguments, in a trace.
-/

namespace RosuPP

/-! ## Data model -/

/-- A C pointer: an address, `0` being the nil pointer. -/
abbrev Ptr := Nat

/-- The nil pointer, the zero value of a Go pointer variable. -/
def nil : Ptr := 0

/-- A Go `float64` / C `double`: an IEEE 754 binary64 value, given by its
64-bit pattern (1 sign bit, 11 exponent bits, 52 fraction bits). -/
structure Float64 where
  bits : Nat
  deriving DecidableEq, Repr

namespace Float64

def sign (x : Float64) : Nat := x.bits / 2 ^ 63 % 2

def exponent (x : Float64) : Nat := x.bits / 2 ^ 52 % 2 ^ 11

def fraction (x : Float64) : Nat := x.bits % 2 ^ 52

def isNaN (x : Float64) : Bool := x.exponent == 2047 && x.fraction != 0

def isZero (x : Float64) : Bool := x.exponent == 0 && x.fraction == 0

/-- The Go comparison `x > 0` on `float64`: false for NaN and for both zeros,
otherwise decided by the sign bit. -/
def gtZero (x : Float64) : Bool := !x.isNaN && !x.isZero && x.sign == 0

/-- The comparison `x < 0` on `float64`: a negative value. -/
def ltZero (x : Float64) : Bool := !x.isNaN && !x.isZero && x.sign == 1

/-- The value `+0.0`, the zero value of a Go `float64` field. -/
def zero : Float64 := ⟨0⟩

/-- The value `95.0` (exponent 1029, fraction `0x7C00000000000`). -/
def ninetyFive : Float64 := ⟨0x4057C00000000000⟩

/-- The value `-1.0` (sign 1, exponent 1023, fraction 0). -/
def minusOne : Float64 := ⟨0xBFF0000000000000⟩

end Float64

/-- The struct `ScoreParams`.  Go `uint` fields are natural numbers (below
`2 ^ 64` on a 64-bit platform); the `float64` fields are bit patterns. -/
structure ScoreParams where
  mode : Nat
  mods : Nat
  acc : Float64
  n300 : Nat
  n100 : Nat
  n50 : Nat
  nMisses : Nat
  nKatu : Nat
  combo : Nat
  passedObjects : Nat
  clockRate : Float64
  deriving DecidableEq, Repr

/-- The struct `RosuCalculator`: the native calculator handle. -/
structure RosuCalculator where
  inner : Ptr
  deriving DecidableEq, Repr

/-! ## The native boundary -/

/-- One call into the native library, with the arguments it receives.  An
argument passed by address (`&x`) is recorded by the value stored at that
address when the call is made. -/
inductive NativeCall where
  | calculator_from_data (out : Ptr) (data : List Nat)
  | calculator_destroy (handle : Ptr)
  | calculator_calculate (handle : Ptr) (params : Ptr)
  | score_params_new (out : Ptr)
  | score_params_destroy (params : Ptr)
  | score_params_mode (params : Ptr) (v : Nat)
  | score_params_mods (params : Ptr) (v : Nat)
  | score_params_acc (params : Ptr) (v : Float64)
  | score_params_n300 (params : Ptr) (v : Nat)
  | score_params_n100 (params : Ptr) (v : Nat)
  | score_params_n50 (params : Ptr) (v : Nat)
  | score_params_combo (params : Ptr) (v : Nat)
  | score_params_n_misses (params : Ptr) (v : Nat)
  | score_params_n_katu (params : Ptr) (v : Nat)
  | score_params_passed_objects (params : Ptr) (v : Nat)
  | score_params_clock_rate (params : Ptr) (v : Float64)
  deriving DecidableEq, Repr

/-- The names of the native functions. -/
inductive Fn where
  | calculator_from_data
  | calculator_destroy
  | calculator_calculate
  | score_params_new
  | score_params_destroy
  | score_params_mode
  | score_params_mods
  | score_params_acc
  | score_params_n300
  | score_params_n100
  | score_params_n50
  | score_params_combo
  | score_params_n_misses
  | score_params_n_katu
  | score_params_passed_objects
  | score_params_clock_rate
  deriving DecidableEq, Repr

/-- The native function a call goes to. -/
def NativeCall.fn : NativeCall → Fn
  | .calculator_from_data _ _ => .calculator_from_data
  | .calculator_destroy _ => .calculator_destroy
  | .calculator_calculate _ _ => .calculator_calculate
  | .score_params_new _ => .score_params_new
  | .score_params_destroy _ => .score_params_destroy
  | .score_params_mode _ _ => .score_params_mode
  | .score_params_mods _ _ => .score_params_mods
  | .score_params_acc _ _ => .score_params_acc
  | .score_params_n300 _ _ => .score_params_n300
  | .score_params_n100 _ _ => .score_params_n100
  | .score_params_n50 _ _ => .score_params_n50
  | .score_params_combo _ _ => .score_params_combo
  | .score_params_n_misses _ _ => .score_params_n_misses
  | .score_params_n_katu _ _ => .score_params_n_katu
  | .score_params_passed_objects _ _ => .score_params_passed_objects
  | .score_params_clock_rate _ _ => .score_params_clock_rate

/-- The setters of the native score parameters: the `score_params_*`
functions other than `score_params_new` and `score_params_destroy`. -/
def Fn.isSetter : Fn → Bool
  | .score_params_mode => true
  | .score_params_mods => true
  | .score_params_acc => true
  | .score_params_n300 => true
  | .score_params_n100 => true
  | .score_params_n50 => true
  | .score_params_combo => true
  | .score_params_n_misses => true
  | .score_params_n_katu => true
  | .score_params_passed_objects => true
  | .score_params_clock_rate => true
  | _ => false

/-- The native library `rosu_pp_go`, as far as the binding uses it: one field
per native function, acting on the native world `W`.  A function with an
out-parameter takes the value stored there and returns the value it leaves
there; a function returning an error code returns it first. -/
structure Native (W R : Type) where
  calculator_from_data : Ptr → List Nat → W → Int × Ptr × W
  calculator_destroy : Ptr → W → Ptr × W
  calculator_calculate : Ptr → Ptr → W → R × W
  score_params_new : Ptr → W → Int × Ptr × W
  score_params_destroy : Ptr → W → Ptr × W
  score_params_mode : Ptr → Nat → W → W
  score_params_mods : Ptr → Nat → W → W
  score_params_acc : Ptr → Float64 → W → W
  score_params_n300 : Ptr → Nat → W → W
  score_params_n100 : Ptr → Nat → W → W
  score_params_n50 : Ptr → Nat → W → W
  score_params_combo : Ptr → Nat → W → W
  score_params_n_misses : Ptr → Nat → W → W
  score_params_n_katu : Ptr → Nat → W → W
  score_params_passed_objects : Ptr → Nat → W → W
  score_params_clock_rate : Ptr → Float64 → W → W

/-- The state of an execution: the native world and the native calls made so
far, oldest first. -/
structure Run (W : Type) where
  world : W
  trace : List NativeCall

/-! ## The cgo namespace `C`

Conversions to C types and the native calls, each call acting on the world and
appending itself to the trace. -/

namespace C

variable {W R : Type}

/-- The conversion `C.uint(v)` of a Go `uint`: C `unsigned int` has 32 bits. -/
def uint (v : Nat) : Nat := v % 2 ^ 32

/-- The conversion `C.mode(v)` of a Go `uint`: `mode` is a C enumeration,
which cgo represents as a 32-bit unsigned integer. -/
def mode (v : Nat) : Nat := v % 2 ^ 32

/-- The conversion `C.double(x)` of a Go `float64`: the same binary64 value. -/
def double (x : Float64) : Float64 := x

/-- The conversion `C.CString(s)`: the bytes of the string followed by a
terminating zero byte. -/
def CString (s : List Nat) : List Nat := s ++ [0]

def calculator_from_data (N : Native W R) (out : Ptr) (data : List Nat) (st : Run W) :
    Int × Ptr × Run W :=
  let r := N.calculator_from_data out data st.world
  (r.1, r.2.1, ⟨r.2.2, st.trace ++ [.calculator_from_data out data]⟩)

def calculator_destroy (N : Native W R) (handle : Ptr) (st : Run W) : Ptr × Run W :=
  let r := N.calculator_destroy handle st.world
  (r.1, ⟨r.2, st.trace ++ [.calculator_destroy handle]⟩)

def calculator_calculate (N : Native W R) (handle params : Ptr) (st : Run W) : R × Run W :=
  let r := N.calculator_calculate handle params st.world
  (r.1, ⟨r.2, st.trace ++ [.calculator_calculate handle params]⟩)

def score_params_new (N : Native W R) (out : Ptr) (st : Run W) : Int × Ptr × Run W :=
  let r := N.score_params_new out st.world
  (r.1, r.2.1, ⟨r.2.2, st.trace ++ [.score_params_new out]⟩)

def score_params_destroy (N : Native W R) (params : Ptr) (st : Run W) : Ptr × Run W :=
  let r := N.score_params_destroy params st.world
  (r.1, ⟨r.2, st.trace ++ [.score_params_destroy params]⟩)

def score_params_mode (N : Native W R) (p : Ptr) (v : Nat) (st : Run W) : Run W :=
  ⟨N.score_params_mode p v st.world, st.trace ++ [.score_params_mode p v]⟩

def score_params_mods (N : Native W R) (p : Ptr) (v : Nat) (st : Run W) : Run W :=
  ⟨N.score_params_mods p v st.world, st.trace ++ [.score_params_mods p v]⟩

def score_params_acc (N : Native W R) (p : Ptr) (v : Float64) (st : Run W) : Run W :=
  ⟨N.score_params_acc p v st.world, st.trace ++ [.score_params_acc p v]⟩

def score_params_n300 (N : Native W R) (p : Ptr) (v : Nat) (st : Run W) : Run W :=
  ⟨N.score_params_n300 p v st.world, st.trace ++ [.score_params_n300 p v]⟩

def score_params_n100 (N : Native W R) (p : Ptr) (v : Nat) (st : Run W) : Run W :=
  ⟨N.score_params_n100 p v st.world, st.trace ++ [.score_params_n100 p v]⟩

def score_params_n50 (N : Native W R) (p : Ptr) (v : Nat) (st : Run W) : Run W :=
  ⟨N.score_params_n50 p v st.world, st.trace ++ [.score_params_n50 p v]⟩

def score_params_combo (N : Native W R) (p : Ptr) (v : Nat) (st : Run W) : Run W :=
  ⟨N.score_params_combo p v st.world, st.trace ++ [.score_params_combo p v]⟩

def score_params_n_misses (N : Native W R) (p : Ptr) (v : Nat) (st : Run W) : Run W :=
  ⟨N.score_params_n_misses p v st.world, st.trace ++ [.score_params_n_misses p v]⟩

def score_params_n_katu (N : Native W R) (p : Ptr) (v : Nat) (st : Run W) : Run W :=
  ⟨N.score_params_n_katu p v st.world, st.trace ++ [.score_params_n_katu p v]⟩

def score_params_passed_objects (N : Native W R) (p : Ptr) (v : Nat) (st : Run W) : Run W :=
  ⟨N.score_params_passed_objects p v st.world, st.trace ++ [.score_params_passed_objects p v]⟩

def score_params_clock_rate (N : Native W R) (p : Ptr) (v : Float64) (st : Run W) : Run W :=
  ⟨N.score_params_clock_rate p v st.world, st.trace ++ [.score_params_clock_rate p v]⟩

end C

/-! ## The binding -/

section Binding

variable {W R : Type}

/-- The function `CreateCalculator`.  `mapData` is the byte sequence of the Go
string.  The local `calculator` starts nil and is passed by address; the
copy made by `C.CString` and its deferred `C.free` are libc memory management
and leave the native library untouched. -/
def CreateCalculator (N : Native W R) (mapData : List Nat) (st : Run W) :
    (RosuCalculator × Bool) × Run W :=
  let cMapData := C.CString mapData
  let calculator : Ptr := nil
  match C.calculator_from_data N calculator cMapData st with
  | (err, calculator, st) =>
    if err ≠ 0 then
      ((⟨nil⟩, false), st)
    else
      ((⟨calculator⟩, true), st)

/-- The method `RosuCalculator.Calculate` on a non-nil pointer: `score` is the
struct behind the pointer argument.  The method on any pointer, nil included,
is `RosuCalculator.CalculatePtr`, which agrees with this function on every
non-nil pointer.  `default` of `R` is the zero value `C.calculateresult{}`.
The deferred `score_params_destroy(&scoreParams)` runs when the function
returns, after `calculator_calculate`. -/
def RosuCalculator.Calculate [Inhabited R] (N : Native W R) (rosu : RosuCalculator)
    (score : ScoreParams) (st : Run W) : (R × Bool) × Run W :=
  let scoreParams : Ptr := nil
  match C.score_params_new N scoreParams st with
  | (err, scoreParams, st) =>
    if err ≠ 0 then
      ((default, false), st)
    else
      let st := C.score_params_mode N scoreParams (C.mode score.mode) st
      let st := if score.mods > 0 then
        C.score_params_mods N scoreParams (C.uint score.mods) st else st
      let st := if score.acc.gtZero then
        C.score_params_acc N scoreParams (C.double score.acc) st else st
      let st := if score.n300 > 0 then
        C.score_params_n300 N scoreParams (C.uint score.n300) st else st
      let st := if score.n100 > 0 then
        C.score_params_n100 N scoreParams (C.uint score.n100) st else st
      let st := if score.n50 > 0 then
        C.score_params_n50 N scoreParams (C.uint score.n50) st else st
      let st := if score.combo > 0 then
        C.score_params_combo N scoreParams (C.uint score.combo) st else st
      let st := if score.nMisses > 0 then
        C.score_params_n_misses N scoreParams (C.uint score.nMisses) st else st
      let st := if score.nKatu > 0 then
        C.score_params_n_katu N scoreParams (C.uint score.nKatu) st else st
      let st := if score.passedObjects > 0 then
        C.score_params_passed_objects N scoreParams (C.uint score.nKatu) st else st
      let st := if score.clockRate.gtZero then
        C.score_params_clock_rate N scoreParams (C.double score.clockRate) st else st
      match C.calculator_calculate N rosu.inner scoreParams st with
      | (calculationResult, st) =>
        match C.score_params_destroy N scoreParams st with
        | (_, st) => ((calculationResult, true), st)

/-- How a Go call ends: it returns a value, or a run-time panic unwinds it. -/
inductive Outcome (α : Type) where
  | returned (v : α)
  | panicked
  deriving DecidableEq, Repr

/-- The method `RosuCalculator.Calculate` on its pointer argument: `score` is
`none` for a nil `*ScoreParams`.  The pointer is first dereferenced at
`score.mode`, after `score_params_new` has returned zero and before the
`defer` statement is reached; on a nil pointer that is a run-time panic, and
no deferred call has been registered. -/
def RosuCalculator.CalculatePtr [Inhabited R] (N : Native W R) (rosu : RosuCalculator)
    (score : Option ScoreParams) (st : Run W) : Outcome (R × Bool) × Run W :=
  let scoreParams : Ptr := nil
  match C.score_params_new N scoreParams st with
  | (err, scoreParams, st) =>
    if err ≠ 0 then
      (.returned (default, false), st)
    else
      match score with
      | none => (.panicked, st)
      | some score =>
        let st := C.score_params_mode N scoreParams (C.mode score.mode) st
        let st := if score.mods > 0 then
          C.score_params_mods N scoreParams (C.uint score.mods) st else st
        let st := if score.acc.gtZero then
          C.score_params_acc N scoreParams (C.double score.acc) st else st
        let st := if score.n300 > 0 then
          C.score_params_n300 N scoreParams (C.uint score.n300) st else st
        let st := if score.n100 > 0 then
          C.score_params_n100 N scoreParams (C.uint score.n100) st else st
        let st := if score.n50 > 0 then
          C.score_params_n50 N scoreParams (C.uint score.n50) st else st
        let st := if score.combo > 0 then
          C.score_params_combo N scoreParams (C.uint score.combo) st else st
        let st := if score.nMisses > 0 then
          C.score_params_n_misses N scoreParams (C.uint score.nMisses) st else st
        let st := if score.nKatu > 0 then
          C.score_params_n_katu N scoreParams (C.uint score.nKatu) st else st
        let st := if score.passedObjects > 0 then
          C.score_params_passed_objects N scoreParams (C.uint score.nKatu) st else st
        let st := if score.clockRate.gtZero then
          C.score_params_clock_rate N scoreParams (C.double score.clockRate) st else st
        match C.calculator_calculate N rosu.inner scoreParams st with
        | (calculationResult, st) =>
          match C.score_params_destroy N scoreParams st with
          | (_, st) => (.returned (calculationResult, true), st)

/-- The Go memory in which `RosuCalculator` variables live: one cell per
variable, holding its `inner` pointer; the address of a variable is the index
of its cell. -/
structure Heap where
  cells : List Ptr
  deriving DecidableEq, Repr

/-- The pointer stored at an address (nil where there is no variable). -/
def Heap.read (m : Heap) (a : Nat) : Ptr := m.cells.getD a nil

/-- Store a pointer at an address. -/
def Heap.write (m : Heap) (a : Nat) (v : Ptr) : Heap := ⟨m.cells.set a v⟩

/-- A new variable holding `v`: its address, and the memory with it. -/
def Heap.alloc (m : Heap) (v : Ptr) : Nat × Heap := (m.cells.length, ⟨m.cells ++ [v]⟩)

/-- The method `RosuCalculator.Destroy`.  The receiver is declared by value,
`(rosu RosuCalculator)`, so `rosu` is a variable of the method, new at every
call and holding a copy of the value the method is called on.
`calculator_destroy` gets the address `&rosu.inner` of that variable; what
the native function leaves behind the pointer is stored there.  Returns the
memory and the execution state after the call. -/
def RosuCalculator.Destroy (N : Native W R) (rosu : RosuCalculator) (m : Heap)
    (st : Run W) : Heap × Run W :=
  match m.alloc rosu.inner with
  | (addr, m) =>
    match C.calculator_destroy N (m.read addr) st with
    | (left, st) => (m.write addr left, st)

end Binding

/-! ## Replaying setter calls

The effect of a logged setter call on the native world, used to speak about
the native parameters that a sequence of setter calls builds. -/

section Replay

variable {W R : Type}

/-- The effect on the native world of a logged setter call; the calls that
return a value are not setters and are not replayed. -/
def Native.set (N : Native W R) : NativeCall → W → W
  | .score_params_mode p v => N.score_params_mode p v
  | .score_params_mods p v => N.score_params_mods p v
  | .score_params_acc p v => N.score_params_acc p v
  | .score_params_n300 p v => N.score_params_n300 p v
  | .score_params_n100 p v => N.score_params_n100 p v
  | .score_params_n50 p v => N.score_params_n50 p v
  | .score_params_combo p v => N.score_params_combo p v
  | .score_params_n_misses p v => N.score_params_n_misses p v
  | .score_params_n_katu p v => N.score_params_n_katu p v
  | .score_params_passed_objects p v => N.score_params_passed_objects p v
  | .score_params_clock_rate p v => N.score_params_clock_rate p v
  | _ => id

/-- The native world after a sequence of setter calls, made in order. -/
def Native.replay (N : Native W R) (calls : List NativeCall) (w : W) : W :=
  calls.foldl (fun w c => N.set c w) w

/-- A setter call as a step of an execution. -/
def Run.exec (N : Native W R) (c : NativeCall) (st : Run W) : Run W :=
  ⟨N.set c st.world, st.trace ++ [c]⟩

/-- A sequence of setter calls as steps of an execution. -/
def Run.execAll (N : Native W R) (calls : List NativeCall) (st : Run W) : Run W :=
  calls.foldl (fun st c => Run.exec N c st) st

/-- The setter calls of a trace, in order. -/
def setters (trace : List NativeCall) : List NativeCall :=
  trace.filter (fun c => c.fn.isSetter)

/-- The number of calls to the native function `f` in a trace. -/
def calls (f : Fn) (trace : List NativeCall) : Nat :=
  trace.countP (fun c => c.fn == f)

/-- The setter calls that `Calculate` makes for `score` on the parameters
`p`, as one list: the unconditional mode call, then one optional call per
guarded statement, in source order. -/
def setterCalls (p : Ptr) (score : ScoreParams) : List NativeCall :=
  [.score_params_mode p (C.mode score.mode)]
    ++ (if score.mods > 0 then [.score_params_mods p (C.uint score.mods)] else [])
    ++ (if score.acc.gtZero then [.score_params_acc p (C.double score.acc)] else [])
    ++ (if score.n300 > 0 then [.score_params_n300 p (C.uint score.n300)] else [])
    ++ (if score.n100 > 0 then [.score_params_n100 p (C.uint score.n100)] else [])
    ++ (if score.n50 > 0 then [.score_params_n50 p (C.uint score.n50)] else [])
    ++ (if score.combo > 0 then [.score_params_combo p (C.uint score.combo)] else [])
    ++ (if score.nMisses > 0 then [.score_params_n_misses p (C.uint score.nMisses)] else [])
    ++ (if score.nKatu > 0 then [.score_params_n_katu p (C.uint score.nKatu)] else [])
    ++ (if score.passedObjects > 0 then
          [.score_params_passed_objects p (C.uint score.nKatu)] else [])
    ++ (if score.clockRate.gtZero then
          [.score_params_clock_rate p (C.double score.clockRate)] else [])

end Replay

/-! ## The optional fields of `ScoreParams` -/

/-- The fields of `ScoreParams` that `Calculate` forwards under a guard. -/
inductive Field where
  | mods
  | acc
  | n300
  | n100
  | n50
  | combo
  | nMisses
  | nKatu
  | passedObjects
  | clockRate
  deriving DecidableEq, Repr

/-- The native setter of a field. -/
def Field.setter : Field → Fn
  | .mods => .score_params_mods
  | .acc => .score_params_acc
  | .n300 => .score_params_n300
  | .n100 => .score_params_n100
  | .n50 => .score_params_n50
  | .combo => .score_params_combo
  | .nMisses => .score_params_n_misses
  | .nKatu => .score_params_n_katu
  | .passedObjects => .score_params_passed_objects
  | .clockRate => .score_params_clock_rate

/-- The field is set: its value is `> 0`, on the Go value of the field. -/
def ScoreParams.positive (s : ScoreParams) : Field → Bool
  | .mods => decide (s.mods > 0)
  | .acc => s.acc.gtZero
  | .n300 => decide (s.n300 > 0)
  | .n100 => decide (s.n100 > 0)
  | .n50 => decide (s.n50 > 0)
  | .combo => decide (s.combo > 0)
  | .nMisses => decide (s.nMisses > 0)
  | .nKatu => decide (s.nKatu > 0)
  | .passedObjects => decide (s.passedObjects > 0)
  | .clockRate => s.clockRate.gtZero

/-- The field is unset: its value is zero. -/
def ScoreParams.unset (s : ScoreParams) : Field → Bool
  | .mods => decide (s.mods = 0)
  | .acc => s.acc.isZero
  | .n300 => decide (s.n300 = 0)
  | .n100 => decide (s.n100 = 0)
  | .n50 => decide (s.n50 = 0)
  | .combo => decide (s.combo = 0)
  | .nMisses => decide (s.nMisses = 0)
  | .nKatu => decide (s.nKatu = 0)
  | .passedObjects => decide (s.passedObjects = 0)
  | .clockRate => s.clockRate.isZero

/-- The call of a field's setter, on the parameters `p`, with the field's own
value as it stands in the `ScoreParams`. -/
def ScoreParams.ownCall (s : ScoreParams) (p : Ptr) : Field → NativeCall
  | .mods => .score_params_mods p s.mods
  | .acc => .score_params_acc p s.acc
  | .n300 => .score_params_n300 p s.n300
  | .n100 => .score_params_n100 p s.n100
  | .n50 => .score_params_n50 p s.n50
  | .combo => .score_params_combo p s.combo
  | .nMisses => .score_params_n_misses p s.nMisses
  | .nKatu => .score_params_n_katu p s.nKatu
  | .passedObjects => .score_params_passed_objects p s.passedObjects
  | .clockRate => .score_params_clock_rate p s.clockRate

/-- The call of a field's setter, on the parameters `p`, with the field's own
value reduced modulo `2 ^ 32` (a `float64` field is passed as it is). -/
def ScoreParams.wrappedCall (s : ScoreParams) (p : Ptr) : Field → NativeCall
  | .mods => .score_params_mods p (s.mods % 2 ^ 32)
  | .acc => .score_params_acc p s.acc
  | .n300 => .score_params_n300 p (s.n300 % 2 ^ 32)
  | .n100 => .score_params_n100 p (s.n100 % 2 ^ 32)
  | .n50 => .score_params_n50 p (s.n50 % 2 ^ 32)
  | .combo => .score_params_combo p (s.combo % 2 ^ 32)
  | .nMisses => .score_params_n_misses p (s.nMisses % 2 ^ 32)
  | .nKatu => .score_params_n_katu p (s.nKatu % 2 ^ 32)
  | .passedObjects => .score_params_passed_objects p (s.passedObjects % 2 ^ 32)
  | .clockRate => .score_params_clock_rate p s.clockRate

/-- The integer fields of a `ScoreParams` are all below `2 ^ 32`. -/
def ScoreParams.below32 (s : ScoreParams) : Prop :=
  s.mode < 2 ^ 32 ∧ s.mods < 2 ^ 32 ∧ s.n300 < 2 ^ 32 ∧ s.n100 < 2 ^ 32 ∧ s.n50 < 2 ^ 32
    ∧ s.nMisses < 2 ^ 32 ∧ s.nKatu < 2 ^ 32 ∧ s.combo < 2 ^ 32 ∧ s.passedObjects < 2 ^ 32

/-- A `ScoreParams` with only `mode` set: every other field has its zero
value. -/
def onlyMode (mode : Nat) : ScoreParams :=
  ⟨mode, 0, Float64.zero, 0, 0, 0, 0, 0, 0, 0, Float64.zero⟩

/-- The score built in `main`: `ScoreParams{mode: 3, acc: 95, mods: 0}`. -/
def mainScore : ScoreParams :=
  { onlyMode 3 with acc := Float64.ninetyFive, mods := 0 }

/-! ## A native library to run the binding against

A small executable stand-in for the native library, on which the binding is
evaluated at concrete inputs.  It keeps the score parameters it is handed as
records of optional fields, and its calculation returns the record it was
given, so that the result shows which fields were set and to what. -/

/-- The native score parameters of the stand-in: a field is `none` until its
setter is called (the native default). -/
structure StubParams where
  mode : Option Nat := none
  mods : Option Nat := none
  acc : Option Float64 := none
  n300 : Option Nat := none
  n100 : Option Nat := none
  n50 : Option Nat := none
  combo : Option Nat := none
  nMisses : Option Nat := none
  nKatu : Option Nat := none
  passedObjects : Option Nat := none
  clockRate : Option Float64 := none
  deriving DecidableEq, Repr

instance : Inhabited StubParams := ⟨{}⟩

/-- The world of the stand-in: the code its constructors return, the next
handle it hands out, and the live score parameters by handle. -/
structure StubWorld where
  code : Int
  next : Ptr
  live : List (Ptr × StubParams)
  deriving DecidableEq, Repr

/-- Update the parameters stored under the handle `p`. -/
def StubWorld.update (p : Ptr) (f : StubParams → StubParams) (w : StubWorld) : StubWorld :=
  { w with live := w.live.map (fun e => if e.1 = p then (e.1, f e.2) else e) }

/-- The parameters stored under the handle `p`, the defaults if there are none. -/
def StubWorld.lookup (p : Ptr) (w : StubWorld) : StubParams :=
  ((w.live.find? (fun e => e.1 = p)).map Prod.snd).getD {}

/-- The stand-in: constructors fail with the world's code when it is nonzero
and leave the out-parameter alone, otherwise hand out a fresh handle;
destructors write nil back through the pointer they are given. -/
def stub : Native StubWorld StubParams where
  calculator_from_data out _ w :=
    if w.code ≠ 0 then (w.code, out, w) else (0, w.next, { w with next := w.next + 1 })
  calculator_destroy _ w := (nil, w)
  calculator_calculate _ p w := (w.lookup p, w)
  score_params_new out w :=
    if w.code ≠ 0 then (w.code, out, w)
    else (0, w.next, { w with next := w.next + 1, live := (w.next, {}) :: w.live })
  score_params_destroy p w := (nil, { w with live := w.live.filter (fun e => e.1 ≠ p) })
  score_params_mode p v := StubWorld.update p (fun x => { x with mode := some v })
  score_params_mods p v := StubWorld.update p (fun x => { x with mods := some v })
  score_params_acc p v := StubWorld.update p (fun x => { x with acc := some v })
  score_params_n300 p v := StubWorld.update p (fun x => { x with n300 := some v })
  score_params_n100 p v := StubWorld.update p (fun x => { x with n100 := some v })
  score_params_n50 p v := StubWorld.update p (fun x => { x with n50 := some v })
  score_params_combo p v := StubWorld.update p (fun x => { x with combo := some v })
  score_params_n_misses p v := StubWorld.update p (fun x => { x with nMisses := some v })
  score_params_n_katu p v := StubWorld.update p (fun x => { x with nKatu := some v })
  score_params_passed_objects p v :=
    StubWorld.update p (fun x => { x with passedObjects := some v })
  score_params_clock_rate p v := StubWorld.update p (fun x => { x with clockRate := some v })

/-- A world of the stand-in in which constructors succeed; the next handle
is `1`. -/
def stubWorld : StubWorld := ⟨0, 1, []⟩

/-- A world of the stand-in in which constructors fail with code `1`. -/
def failWorld : StubWorld := ⟨1, 1, []⟩

/-! ## Shared lemmas -/

section Lemmas

variable {W R : Type}

theorem Run.execAll_nil (N : Native W R) (st : Run W) : Run.execAll N [] st = st := rfl

theorem Run.execAll_append (N : Native W R) (xs ys : List NativeCall) (st : Run W) :
    Run.execAll N (xs ++ ys) st = Run.execAll N ys (Run.execAll N xs st) := by
  simp [Run.execAll, List.foldl_append]

theorem Run.execAll_guard (N : Native W R) (c : Prop) [Decidable c] (x : NativeCall)
    (st : Run W) :
    Run.execAll N (if c then [x] else []) st = if c then Run.exec N x st else st := by
  by_cases h : c <;> simp [h, Run.execAll]

theorem Run.execAll_trace (N : Native W R) (xs : List NativeCall) (st : Run W) :
    (Run.execAll N xs st).trace = st.trace ++ xs := by
  induction xs generalizing st with
  | nil => simp [Run.execAll]
  | cons x xs ih =>
    have h : Run.execAll N (x :: xs) st = Run.execAll N xs (Run.exec N x st) := rfl
    rw [h, ih]
    simp [Run.exec]

theorem Run.execAll_world (N : Native W R) (xs : List NativeCall) (st : Run W) :
    (Run.execAll N xs st).world = N.replay xs st.world := by
  induction xs generalizing st with
  | nil => simp [Run.execAll, Native.replay]
  | cons x xs ih =>
    have h : Run.execAll N (x :: xs) st = Run.execAll N xs (Run.exec N x st) := rfl
    rw [h, ih]
    simp [Run.exec, Native.replay]

theorem Run.execAll_singleton (N : Native W R) (x : NativeCall) (st : Run W) :
    Run.execAll N [x] st = Run.exec N x st := rfl

/-- The guarded setter statements of `Calculate` are the replay of
`setterCalls`. -/
theorem Run.execAll_setterCalls (N : Native W R) (p : Ptr) (score : ScoreParams)
    (st : Run W) :
    Run.execAll N (setterCalls p score) st =
      (let st := C.score_params_mode N p (C.mode score.mode) st
      let st := if score.mods > 0 then
        C.score_params_mods N p (C.uint score.mods) st else st
      let st := if score.acc.gtZero then
        C.score_params_acc N p (C.double score.acc) st else st
      let st := if score.n300 > 0 then
        C.score_params_n300 N p (C.uint score.n300) st else st
      let st := if score.n100 > 0 then
        C.score_params_n100 N p (C.uint score.n100) st else st
      let st := if score.n50 > 0 then
        C.score_params_n50 N p (C.uint score.n50) st else st
      let st := if score.combo > 0 then
        C.score_params_combo N p (C.uint score.combo) st else st
      let st := if score.nMisses > 0 then
        C.score_params_n_misses N p (C.uint score.nMisses) st else st
      let st := if score.nKatu > 0 then
        C.score_params_n_katu N p (C.uint score.nKatu) st else st
      let st := if score.passedObjects > 0 then
        C.score_params_passed_objects N p (C.uint score.nKatu) st else st
      let st := if score.clockRate.gtZero then
        C.score_params_clock_rate N p (C.double score.clockRate) st else st
      st) := by
  simp only [setterCalls, Run.execAll_append, Run.execAll_guard, Run.execAll_singleton]
  rfl

/-- The shape of every execution of `Calculate`: the call to
`score_params_new`, and on success the setter calls, `calculator_calculate`
and `score_params_destroy`. -/
theorem Calculate_eq [Inhabited R] (N : Native W R) (rosu : RosuCalculator)
    (score : ScoreParams) (st : Run W) :
    rosu.Calculate N score st =
      if (N.score_params_new nil st.world).1 ≠ 0 then
        ((default, false),
          ⟨(N.score_params_new nil st.world).2.2, st.trace ++ [.score_params_new nil]⟩)
      else
        let p := (N.score_params_new nil st.world).2.1
        let w := N.replay (setterCalls p score) (N.score_params_new nil st.world).2.2
        (((N.calculator_calculate rosu.inner p w).1, true),
          ⟨(N.score_params_destroy p (N.calculator_calculate rosu.inner p w).2).2,
            st.trace ++ [.score_params_new nil] ++ setterCalls p score
              ++ [.calculator_calculate rosu.inner p, .score_params_destroy p]⟩) := by
  unfold RosuCalculator.Calculate
  simp only [C.score_params_new]
  by_cases h : (N.score_params_new nil st.world).1 ≠ 0
  · rw [if_pos h, if_pos h]
  · rw [if_neg h, if_neg h]
    have key := Run.execAll_setterCalls N (N.score_params_new nil st.world).2.1 score
      ⟨(N.score_params_new nil st.world).2.2, st.trace ++ [.score_params_new nil]⟩
    simp only at key
    simp only [← key, C.calculator_calculate, C.score_params_destroy, Run.execAll_trace,
      Run.execAll_world, List.append_assoc, List.singleton_append]

theorem Calculate_fail [Inhabited R] (N : Native W R) (rosu : RosuCalculator)
    (score : ScoreParams) (st : Run W) (h : (N.score_params_new nil st.world).1 ≠ 0) :
    rosu.Calculate N score st =
      ((default, false),
        ⟨(N.score_params_new nil st.world).2.2, st.trace ++ [.score_params_new nil]⟩) := by
  rw [Calculate_eq, if_pos h]

theorem Calculate_ok [Inhabited R] (N : Native W R) (rosu : RosuCalculator)
    (score : ScoreParams) (st : Run W) (h : (N.score_params_new nil st.world).1 = 0) :
    rosu.Calculate N score st =
      (((N.calculator_calculate rosu.inner (N.score_params_new nil st.world).2.1
          (N.replay (setterCalls (N.score_params_new nil st.world).2.1 score)
            (N.score_params_new nil st.world).2.2)).1, true),
        ⟨(N.score_params_destroy (N.score_params_new nil st.world).2.1
            (N.calculator_calculate rosu.inner (N.score_params_new nil st.world).2.1
              (N.replay (setterCalls (N.score_params_new nil st.world).2.1 score)
                (N.score_params_new nil st.world).2.2)).2).2,
          st.trace ++ [.score_params_new nil]
            ++ setterCalls (N.score_params_new nil st.world).2.1 score
            ++ [.calculator_calculate rosu.inner (N.score_params_new nil st.world).2.1,
                .score_params_destroy (N.score_params_new nil st.world).2.1]⟩) := by
  rw [Calculate_eq, if_neg (by simpa using h)]

/-- The trace of a successful `Calculate` started with an empty trace. -/
theorem Calculate_trace_ok [Inhabited R] (N : Native W R) (rosu : RosuCalculator)
    (score : ScoreParams) (w : W) (h : (N.score_params_new nil w).1 = 0) :
    (rosu.Calculate N score ⟨w, []⟩).2.trace =
      .score_params_new nil :: (setterCalls (N.score_params_new nil w).2.1 score
        ++ [.calculator_calculate rosu.inner (N.score_params_new nil w).2.1,
            .score_params_destroy (N.score_params_new nil w).2.1]) := by
  rw [Calculate_ok N rosu score ⟨w, []⟩ h]
  simp

theorem countP_guard (q : NativeCall → Bool) (c : Prop) [Decidable c] (x : NativeCall) :
    List.countP q (if c then [x] else []) = if c then (if q x then 1 else 0) else 0 := by
  by_cases h : c <;> simp [h, List.countP_cons]

theorem filter_guard (q : NativeCall → Bool) (c : Prop) [Decidable c] (x : NativeCall) :
    List.filter q (if c then [x] else []) = if c then (if q x then [x] else []) else [] := by
  by_cases h : c
  · by_cases hq : q x <;> simp [h, hq]
  · simp [h]

theorem mem_guard (y : NativeCall) (c : Prop) [Decidable c] (x : NativeCall) :
    y ∈ (if c then [x] else []) ↔ c ∧ y = x := by
  by_cases h : c <;> simp [h]

/-- Every call in `setterCalls` is a setter call. -/
theorem setters_setterCalls (p : Ptr) (s : ScoreParams) :
    setters (setterCalls p s) = setterCalls p s := by
  simp only [setters, setterCalls, List.filter_append, filter_guard, List.filter_cons,
    NativeCall.fn, Fn.isSetter, if_true, List.filter_nil]

/-- The mode setter is called exactly once among `setterCalls`. -/
theorem calls_mode_setterCalls (p : Ptr) (s : ScoreParams) :
    calls .score_params_mode (setterCalls p s) = 1 := by
  simp [calls, setterCalls, List.countP_append, countP_guard, List.countP_cons, NativeCall.fn]

/-- The setter of a field is called once among `setterCalls` when the
field is positive, and not at all otherwise. -/
theorem calls_field_setterCalls (p : Ptr) (s : ScoreParams) (f : Field) :
    calls f.setter (setterCalls p s) = if s.positive f then 1 else 0 := by
  cases f <;>
    simp [calls, setterCalls, List.countP_append, countP_guard, List.countP_cons,
      NativeCall.fn, Field.setter, ScoreParams.positive]

/-- The calls in `setterCalls`, one by one. -/
theorem mem_setterCalls (p : Ptr) (s : ScoreParams) (c : NativeCall) :
    c ∈ setterCalls p s ↔
      c = .score_params_mode p (C.mode s.mode)
      ∨ (s.mods > 0 ∧ c = .score_params_mods p (C.uint s.mods))
      ∨ (s.acc.gtZero ∧ c = .score_params_acc p (C.double s.acc))
      ∨ (s.n300 > 0 ∧ c = .score_params_n300 p (C.uint s.n300))
      ∨ (s.n100 > 0 ∧ c = .score_params_n100 p (C.uint s.n100))
      ∨ (s.n50 > 0 ∧ c = .score_params_n50 p (C.uint s.n50))
      ∨ (s.combo > 0 ∧ c = .score_params_combo p (C.uint s.combo))
      ∨ (s.nMisses > 0 ∧ c = .score_params_n_misses p (C.uint s.nMisses))
      ∨ (s.nKatu > 0 ∧ c = .score_params_n_katu p (C.uint s.nKatu))
      ∨ (s.passedObjects > 0 ∧ c = .score_params_passed_objects p (C.uint s.nKatu))
      ∨ (s.clockRate.gtZero ∧ c = .score_params_clock_rate p (C.double s.clockRate)) := by
  simp only [setterCalls, List.mem_append, mem_guard, List.mem_singleton, or_assoc]

/-- Counting in the trace of a successful `Calculate`. -/
theorem calls_Calculate_ok [Inhabited R] (N : Native W R) (rosu : RosuCalculator)
    (score : ScoreParams) (w : W) (h : (N.score_params_new nil w).1 = 0) (f : Fn) :
    calls f (rosu.Calculate N score ⟨w, []⟩).2.trace =
      (if f = .score_params_new then 1 else 0)
        + calls f (setterCalls (N.score_params_new nil w).2.1 score)
        + (if f = .calculator_calculate then 1 else 0)
        + (if f = .score_params_destroy then 1 else 0) := by
  rw [Calculate_trace_ok N rosu score w h]
  simp only [calls, List.countP_cons, List.countP_append, List.countP_nil]
  generalize List.countP (fun c => c.fn == f) (setterCalls _ score) = k
  cases f <;> simp [NativeCall.fn, Nat.add_comm]

theorem Float64.gtZero_of_isZero (x : Float64) (h : x.isZero = true) : x.gtZero = false := by
  simp [Float64.gtZero, h]

theorem Float64.gtZero_of_ltZero (x : Float64) (h : x.ltZero = true) : x.gtZero = false := by
  simp only [Float64.ltZero, Bool.and_eq_true, beq_iff_eq] at h
  simp [Float64.gtZero, h.2]

/-- An unset field is not positive. -/
theorem ScoreParams.positive_of_unset (s : ScoreParams) (f : Field) (h : s.unset f = true) :
    s.positive f = false := by
  cases f <;> simp only [ScoreParams.unset, decide_eq_true_eq] at h <;>
    first
      | exact Float64.gtZero_of_isZero _ h
      | simp [ScoreParams.positive, h]

/-- With every optional field unset the only setter call is the mode call. -/
theorem setterCalls_of_unset (p : Ptr) (s : ScoreParams) (h : ∀ f, s.unset f = true) :
    setterCalls p s = [.score_params_mode p (C.mode s.mode)] := by
  have h1 := s.positive_of_unset .mods (h _)
  have h2 := s.positive_of_unset .acc (h _)
  have h3 := s.positive_of_unset .n300 (h _)
  have h4 := s.positive_of_unset .n100 (h _)
  have h5 := s.positive_of_unset .n50 (h _)
  have h6 := s.positive_of_unset .combo (h _)
  have h7 := s.positive_of_unset .nMisses (h _)
  have h8 := s.positive_of_unset .nKatu (h _)
  have h9 := s.positive_of_unset .passedObjects (h _)
  have h10 := s.positive_of_unset .clockRate (h _)
  simp only [ScoreParams.positive, decide_eq_false_iff_not] at h1 h2 h3 h4 h5 h6 h7 h8 h9 h10
  simp [setterCalls, h1, h2, h3, h4, h5, h6, h7, h8, h9, h10]

/-- The setter calls of the trace of a successful `Calculate` are
`setterCalls`. -/
theorem setters_Calculate_ok [Inhabited R] (N : Native W R) (rosu : RosuCalculator)
    (score : ScoreParams) (w : W) (h : (N.score_params_new nil w).1 = 0) :
    setters (rosu.Calculate N score ⟨w, []⟩).2.trace
      = setterCalls (N.score_params_new nil w).2.1 score := by
  rw [Calculate_trace_ok N rosu score w h]
  have hs := setters_setterCalls (N.score_params_new nil w).2.1 score
  unfold setters at hs ⊢
  rw [List.filter_cons, List.filter_append, hs]
  simp [NativeCall.fn, Fn.isSetter]

/-- The calls to `score_params_passed_objects` among `setterCalls`. -/
theorem passed_objects_setterCalls (p : Ptr) (s : ScoreParams) :
    (setterCalls p s).filter (fun c => c.fn == .score_params_passed_objects)
      = if s.passedObjects > 0 then [.score_params_passed_objects p (C.uint s.nKatu)]
        else [] := by
  simp [setterCalls, List.filter_append, filter_guard, List.filter_cons, NativeCall.fn]

/-- The trace of a successful `Calculate`, split before its last call. -/
theorem Calculate_trace_concat [Inhabited R] (N : Native W R) (rosu : RosuCalculator)
    (score : ScoreParams) (w : W) (h : (N.score_params_new nil w).1 = 0) :
    (rosu.Calculate N score ⟨w, []⟩).2.trace =
      (.score_params_new nil :: (setterCalls (N.score_params_new nil w).2.1 score
        ++ [.calculator_calculate rosu.inner (N.score_params_new nil w).2.1]))
        ++ [.score_params_destroy (N.score_params_new nil w).2.1] := by
  rw [Calculate_trace_ok N rosu score w h]
  simp

/-- Every call in `setterCalls` goes to a setter. -/
theorem isSetter_of_mem_setterCalls (p : Ptr) (s : ScoreParams) (c : NativeCall)
    (h : c ∈ setterCalls p s) : c.fn.isSetter = true := by
  rw [← setters_setterCalls p s] at h
  exact (List.mem_filter.mp h).2

/-- A positive field has its setter called, among `setterCalls`, with the
field value reduced modulo `2 ^ 32`, unless the field is `passedObjects`. -/
theorem wrappedCall_mem_setterCalls (p : Ptr) (s : ScoreParams) (f : Field)
    (hf : f ≠ .passedObjects) (hp : s.positive f = true) :
    s.wrappedCall p f ∈ setterCalls p s := by
  rw [mem_setterCalls]
  cases f <;> simp only [ScoreParams.positive, decide_eq_true_eq] at hp <;>
    simp_all [ScoreParams.wrappedCall, C.uint, C.double]

/-- Below `2 ^ 32` the reduced value of a field is the value itself. -/
theorem wrappedCall_eq_ownCall (p : Ptr) (s : ScoreParams) (f : Field) (h : s.below32) :
    s.wrappedCall p f = s.ownCall p f := by
  obtain ⟨_, h1, h2, h3, h4, h5, h6, h7, h8⟩ := h
  cases f <;> simp only [ScoreParams.wrappedCall, ScoreParams.ownCall] <;>
    first
      | rfl
      | (congr 1; apply Nat.mod_eq_of_lt; assumption)

/-- On a non-nil pointer `CalculatePtr` returns, and does what `Calculate`
does on the struct behind the pointer. -/
theorem CalculatePtr_some [Inhabited R] (N : Native W R) (rosu : RosuCalculator)
    (score : ScoreParams) (st : Run W) :
    rosu.CalculatePtr N (some score) st
      = (.returned (rosu.Calculate N score st).1, (rosu.Calculate N score st).2) := by
  unfold RosuCalculator.CalculatePtr RosuCalculator.Calculate
  by_cases h : (C.score_params_new N nil st).1 ≠ 0
  · simp only [if_pos h]
  · simp only [if_neg h]

/-- On a nil pointer, when `score_params_new` succeeds, `CalculatePtr` panics
with `score_params_new` as its only native call: the new handle is never
handed to `score_params_destroy`. -/
theorem CalculatePtr_nil [Inhabited R] (N : Native W R) (rosu : RosuCalculator) (w : W)
    (h : (N.score_params_new nil w).1 = 0) :
    rosu.CalculatePtr N none ⟨w, []⟩
      = (.panicked, ⟨(N.score_params_new nil w).2.2, [.score_params_new nil]⟩) := by
  unfold RosuCalculator.CalculatePtr
  simp only [C.score_params_new]
  rw [if_neg (by simpa using h)]
  rfl

/-- Reading a variable that was there before an allocation and a write to the
new variable. -/
theorem Heap.read_write_alloc (m : Heap) (v u : Ptr) (a : Nat) (ha : a < m.cells.length) :
    ((m.alloc v).2.write (m.alloc v).1 u).read a = m.read a := by
  have hne : m.cells.length ≠ a := Nat.ne_of_gt ha
  simp [Heap.read, Heap.write, Heap.alloc, List.getD_eq_getElem?_getD,
    List.getElem?_set, hne, List.getElem?_append_left ha]

/-- Reading the new variable after an allocation and a write to it. -/
theorem Heap.read_write_alloc_self (m : Heap) (v u : Ptr) :
    ((m.alloc v).2.write (m.alloc v).1 u).read (m.alloc v).1 = u := by
  simp [Heap.read, Heap.write, Heap.alloc, List.getD_eq_getElem?_getD, List.getElem?_set]

/-- Reading the new variable right after its allocation. -/
theorem Heap.read_alloc_self (m : Heap) (v : Ptr) :
    (m.alloc v).2.read (m.alloc v).1 = v := by
  simp [Heap.read, Heap.alloc, List.getD_eq_getElem?_getD]

/-- What `Destroy` does: one call to `calculator_destroy`, on the value it was
called on, and a new variable holding what the native function left. -/
theorem Destroy_eq (N : Native W R) (rosu : RosuCalculator) (m : Heap) (st : Run W) :
    rosu.Destroy N m st
      = ((m.alloc rosu.inner).2.write (m.alloc rosu.inner).1
            (N.calculator_destroy rosu.inner st.world).1,
          ⟨(N.calculator_destroy rosu.inner st.world).2,
            st.trace ++ [.calculator_destroy rosu.inner]⟩) := by
  unfold RosuCalculator.Destroy
  simp only [Heap.read_alloc_self, C.calculator_destroy]

end Lemmas

/-! ## The claims -/

section Claims

variable {W R : Type}

/-- C1: `CreateCalculator` maps the native error code to a tagged result.  It
returns the empty `RosuCalculator` (nil handle) with `false` exactly when
`calculator_from_data` returns a nonzero code; when the code is zero it returns
the handle that `calculator_from_data` left in the out-parameter, with `true`.
The only native call is that one, on a nil out-parameter and the C string of
the map data. -/
theorem C1_CreateCalculator_tagged_result (N : Native W R) (mapData : List Nat) (w : W) :
    ((CreateCalculator N mapData ⟨w, []⟩).1 = (⟨nil⟩, false)
        ↔ (N.calculator_from_data nil (C.CString mapData) w).1 ≠ 0)
    ∧ ((N.calculator_from_data nil (C.CString mapData) w).1 = 0 →
        (CreateCalculator N mapData ⟨w, []⟩).1
          = (⟨(N.calculator_from_data nil (C.CString mapData) w).2.1⟩, true))
    ∧ (CreateCalculator N mapData ⟨w, []⟩).2.trace
        = [.calculator_from_data nil (C.CString mapData)] := by
  unfold CreateCalculator
  simp only [C.calculator_from_data]
  by_cases h : (N.calculator_from_data nil (C.CString mapData) w).1 = 0
  · simp [h]
  · simp [h]

/-- C1, on the stand-in library: a failing `calculator_from_data` gives the
empty calculator with `false`, a succeeding one the handle it hands out with
`true`. -/
theorem C1_CreateCalculator_tagged_result_witness :
    (stub.calculator_from_data nil (C.CString [111, 115, 117]) stubWorld).1 = 0
    ∧ (CreateCalculator stub [111, 115, 117] ⟨stubWorld, []⟩).1 = (⟨1⟩, true)
    ∧ (CreateCalculator stub [111, 115, 117] ⟨failWorld, []⟩).1 = (⟨nil⟩, false) :=
  ⟨by decide,
    (C1_CreateCalculator_tagged_result stub [111, 115, 117] stubWorld).2.1 (by decide),
    (C1_CreateCalculator_tagged_result stub [111, 115, 117] failWorld).1.mpr (by decide)⟩

/-- C2: default on absence.  When `score_params_new` succeeds, the setter of
each optional field (mods, acc, n300, n100, n50, combo, nMisses, nKatu,
passedObjects, clockRate) is called exactly once if the field is `> 0` and not
at all if the field is zero.  With every optional field zero, the only setter
call is `score_params_mode`, and the result is what `calculator_calculate`
returns on the freshly created parameters with only the mode set. -/
theorem C2_default_on_absence [Inhabited R] (N : Native W R) (rosu : RosuCalculator)
    (s : ScoreParams) (w : W) (hnew : (N.score_params_new nil w).1 = 0) :
    (∀ f : Field,
      (s.positive f = true → calls f.setter (rosu.Calculate N s ⟨w, []⟩).2.trace = 1)
      ∧ (s.unset f = true → calls f.setter (rosu.Calculate N s ⟨w, []⟩).2.trace = 0))
    ∧ ((∀ f : Field, s.unset f = true) →
        setters (rosu.Calculate N s ⟨w, []⟩).2.trace
          = [.score_params_mode (N.score_params_new nil w).2.1 (C.mode s.mode)]
        ∧ (rosu.Calculate N s ⟨w, []⟩).1
          = ((N.calculator_calculate rosu.inner (N.score_params_new nil w).2.1
              (N.score_params_mode (N.score_params_new nil w).2.1 (C.mode s.mode)
                (N.score_params_new nil w).2.2)).1, true)) := by
  refine ⟨fun f => ⟨fun hp => ?_, fun hu => ?_⟩, fun hall => ⟨?_, ?_⟩⟩
  · rw [calls_Calculate_ok N rosu s w hnew, calls_field_setterCalls, hp]
    cases f <;> simp [Field.setter]
  · rw [calls_Calculate_ok N rosu s w hnew, calls_field_setterCalls,
      s.positive_of_unset f hu]
    cases f <;> simp [Field.setter]
  · rw [Calculate_trace_ok N rosu s w hnew, setterCalls_of_unset _ s hall]
    simp [setters, NativeCall.fn, Fn.isSetter]
  · rw [Calculate_ok N rosu s ⟨w, []⟩ hnew, setterCalls_of_unset _ s hall]
    simp [Native.replay, Native.set]

/-- C2, on the stand-in library with only the mode set: no optional setter is
called and the calculation sees parameters with only the mode set. -/
theorem C2_default_on_absence_witness :
    (stub.score_params_new nil stubWorld).1 = 0
    ∧ (∀ f : Field, (onlyMode 3).unset f = true)
    ∧ setters (RosuCalculator.Calculate stub ⟨7⟩ (onlyMode 3) ⟨stubWorld, []⟩).2.trace
        = [.score_params_mode (stub.score_params_new nil stubWorld).2.1 (C.mode 3)] :=
  ⟨by decide, fun f => by cases f <;> rfl,
    ((C2_default_on_absence stub ⟨7⟩ (onlyMode 3) stubWorld (by decide)).2
      (fun f => by cases f <;> rfl)).1⟩

/-- C3: at the failing input.  Two scores that agree on every field except
`nKatu`, both with `passedObjects = 100`: the value handed to
`score_params_passed_objects` is `0` for `nKatu = 0` and `5` for `nKatu = 5`,
in neither case `100`, and the native parameters end up with those values. -/
theorem C3_passed_objects_follows_nKatu :
    ({ onlyMode 0 with passedObjects := 100, nKatu := 5 } : ScoreParams)
        = { ({ onlyMode 0 with passedObjects := 100 } : ScoreParams) with nKatu := 5 }
    ∧ (RosuCalculator.Calculate stub ⟨7⟩ { onlyMode 0 with passedObjects := 100 }
          ⟨stubWorld, []⟩).2.trace.filter (fun c => c.fn == .score_params_passed_objects)
        = [.score_params_passed_objects 1 0]
    ∧ (RosuCalculator.Calculate stub ⟨7⟩ { onlyMode 0 with passedObjects := 100, nKatu := 5 }
          ⟨stubWorld, []⟩).2.trace.filter (fun c => c.fn == .score_params_passed_objects)
        = [.score_params_passed_objects 1 5]
    ∧ (RosuCalculator.Calculate stub ⟨7⟩ { onlyMode 0 with passedObjects := 100 }
          ⟨stubWorld, []⟩).1.1.passedObjects = some 0
    ∧ (RosuCalculator.Calculate stub ⟨7⟩ { onlyMode 0 with passedObjects := 100, nKatu := 5 }
          ⟨stubWorld, []⟩).1.1.passedObjects = some 5 := by
  refine ⟨rfl, ?_, ?_, rfl, rfl⟩ <;> decide

/-- C4: the binding passes `nKatu` where `passedObjects` was intended.  When
`score_params_new` succeeds and `passedObjects > 0`, the one call to
`score_params_passed_objects` carries `C.uint(score.nKatu)`; no call carries
`C.uint(score.passedObjects)` unless the two values coincide; and with
`passedObjects = 100`, `nKatu = 0` the value handed over is `0`. -/
theorem C4_passed_objects_receives_nKatu [Inhabited R] (N : Native W R)
    (rosu : RosuCalculator) (s : ScoreParams) (w : W)
    (hnew : (N.score_params_new nil w).1 = 0) (hpos : s.passedObjects > 0) :
    (rosu.Calculate N s ⟨w, []⟩).2.trace.filter
        (fun c => c.fn == .score_params_passed_objects)
      = [.score_params_passed_objects (N.score_params_new nil w).2.1 (C.uint s.nKatu)]
    ∧ (C.uint s.nKatu ≠ C.uint s.passedObjects →
        NativeCall.score_params_passed_objects (N.score_params_new nil w).2.1
            (C.uint s.passedObjects)
          ∉ (rosu.Calculate N s ⟨w, []⟩).2.trace)
    ∧ (s.passedObjects = 100 → s.nKatu = 0 →
        (rosu.Calculate N s ⟨w, []⟩).2.trace.filter
            (fun c => c.fn == .score_params_passed_objects)
          = [.score_params_passed_objects (N.score_params_new nil w).2.1 0]) := by
  have key : (rosu.Calculate N s ⟨w, []⟩).2.trace.filter
        (fun c => c.fn == .score_params_passed_objects)
      = [.score_params_passed_objects (N.score_params_new nil w).2.1 (C.uint s.nKatu)] := by
    rw [Calculate_trace_ok N rosu s w hnew]
    rw [List.filter_cons, List.filter_append, passed_objects_setterCalls, if_pos hpos]
    simp [NativeCall.fn]
  refine ⟨key, fun hne hmem => ?_, fun _ hk => ?_⟩
  · have hin : NativeCall.score_params_passed_objects (N.score_params_new nil w).2.1
          (C.uint s.passedObjects)
        ∈ (rosu.Calculate N s ⟨w, []⟩).2.trace.filter
            (fun c => c.fn == .score_params_passed_objects) :=
      List.mem_filter.mpr ⟨hmem, by simp [NativeCall.fn]⟩
    rw [key] at hin
    simp only [List.mem_singleton, NativeCall.score_params_passed_objects.injEq,
      true_and] at hin
    exact hne hin.symm
  · rw [key, hk]
    rfl

/-- C4, on the stand-in library with `passedObjects = 100` and `nKatu = 0`:
the native passed-objects count is set to `0`. -/
theorem C4_passed_objects_receives_nKatu_witness :
    (stub.score_params_new nil stubWorld).1 = 0
    ∧ ({ onlyMode 0 with passedObjects := 100 } : ScoreParams).passedObjects > 0
    ∧ (RosuCalculator.Calculate stub ⟨7⟩ { onlyMode 0 with passedObjects := 100 }
          ⟨stubWorld, []⟩).2.trace.filter (fun c => c.fn == .score_params_passed_objects)
        = [.score_params_passed_objects (stub.score_params_new nil stubWorld).2.1 0] :=
  ⟨by decide, by decide,
    (C4_passed_objects_receives_nKatu stub ⟨7⟩ { onlyMode 0 with passedObjects := 100 }
      stubWorld (by decide) (by decide)).2.2 rfl rfl⟩

/-- C5: `Calculate` returns `ok = false` exactly when `score_params_new`
returns a nonzero code.  In that case the result is the zero
`calculateresult` and `score_params_new` is the only native call.  When the
code is zero, `ok = true` and the result is the value `calculator_calculate`
returns on `rosu.inner` and the new parameters handle `p`, in the native world
that the setter calls `setterCalls p s` of the score, replayed in order on the
world `score_params_new` left, build; those are exactly the setter calls in the
trace, and `calculator_calculate` is called once, on `rosu.inner` and `p`. -/
theorem C5_Calculate_tagged_result [Inhabited R] (N : Native W R) (rosu : RosuCalculator)
    (s : ScoreParams) (w : W) :
    ((rosu.Calculate N s ⟨w, []⟩).1.2 = false ↔ (N.score_params_new nil w).1 ≠ 0)
    ∧ ((N.score_params_new nil w).1 ≠ 0 →
        (rosu.Calculate N s ⟨w, []⟩).1 = (default, false)
        ∧ (rosu.Calculate N s ⟨w, []⟩).2.trace = [.score_params_new nil])
    ∧ ((N.score_params_new nil w).1 = 0 →
        (rosu.Calculate N s ⟨w, []⟩).1
          = ((N.calculator_calculate rosu.inner (N.score_params_new nil w).2.1
              (N.replay (setterCalls (N.score_params_new nil w).2.1 s)
                (N.score_params_new nil w).2.2)).1, true)
        ∧ setters (rosu.Calculate N s ⟨w, []⟩).2.trace
          = setterCalls (N.score_params_new nil w).2.1 s
        ∧ calls .calculator_calculate (rosu.Calculate N s ⟨w, []⟩).2.trace = 1
        ∧ NativeCall.calculator_calculate rosu.inner (N.score_params_new nil w).2.1
            ∈ (rosu.Calculate N s ⟨w, []⟩).2.trace) := by
  refine ⟨?_, fun h => ?_, fun h => ⟨?_, ?_, ?_, ?_⟩⟩
  · by_cases h : (N.score_params_new nil w).1 = 0
    · simp [Calculate_ok N rosu s ⟨w, []⟩ h, h]
    · simp [Calculate_fail N rosu s ⟨w, []⟩ h, h]
  · simp [Calculate_fail N rosu s ⟨w, []⟩ h]
  · rw [Calculate_ok N rosu s ⟨w, []⟩ h]
  · exact setters_Calculate_ok N rosu s w h
  · rw [calls_Calculate_ok N rosu s w h]
    simp [calls, setterCalls, List.countP_append, countP_guard, List.countP_cons,
      NativeCall.fn]
  · rw [Calculate_trace_ok N rosu s w h]
    simp

/-- C5, on the stand-in library with the score of `main`.  With a failing
`score_params_new` the result is the zero value with `false` and nothing else
is called; with a succeeding one the result is computed on parameters that
hold mode 3 and acc 95.0 and nothing else, with `true`. -/
theorem C5_Calculate_tagged_result_witness :
    (stub.score_params_new nil failWorld).1 ≠ 0
    ∧ (RosuCalculator.Calculate stub ⟨7⟩ mainScore ⟨failWorld, []⟩).1 = (default, false)
    ∧ (RosuCalculator.Calculate stub ⟨7⟩ mainScore ⟨failWorld, []⟩).2.trace
        = [.score_params_new nil]
    ∧ (stub.score_params_new nil stubWorld).1 = 0
    ∧ (RosuCalculator.Calculate stub ⟨7⟩ mainScore ⟨stubWorld, []⟩).1
        = ({ mode := some 3, acc := some Float64.ninetyFive }, true)
    ∧ setters (RosuCalculator.Calculate stub ⟨7⟩ mainScore ⟨stubWorld, []⟩).2.trace
        = [.score_params_mode 1 3, .score_params_acc 1 Float64.ninetyFive] :=
  ⟨by decide,
    ((C5_Calculate_tagged_result stub ⟨7⟩ mainScore failWorld).2.1 (by decide)).1,
    ((C5_Calculate_tagged_result stub ⟨7⟩ mainScore failWorld).2.1 (by decide)).2,
    by decide,
    ((C5_Calculate_tagged_result stub ⟨7⟩ mainScore stubWorld).2.2 (by decide)).1.trans rfl,
    ((C5_Calculate_tagged_result stub ⟨7⟩ mainScore stubWorld).2.2 (by decide)).2.1.trans rfl⟩

/-- On a non-nil pointer the native score parameters are acquired and released
inside `Calculate`.  When `score_params_new` succeeds, the trace is that call, then
only setter calls, then `calculator_calculate`, then `score_params_destroy` on
the handle `score_params_new` produced: the handle is created once and
destroyed once, the destroy call is the last native call, and no earlier call
is a destroy call. -/
theorem Calculate_released_of_non_nil [Inhabited R] (N : Native W R) (rosu : RosuCalculator)
    (s : ScoreParams) (w : W) (hnew : (N.score_params_new nil w).1 = 0) :
    (rosu.Calculate N s ⟨w, []⟩).2.trace
      = .score_params_new nil :: (setters (rosu.Calculate N s ⟨w, []⟩).2.trace
          ++ [.calculator_calculate rosu.inner (N.score_params_new nil w).2.1,
              .score_params_destroy (N.score_params_new nil w).2.1])
    ∧ calls .score_params_new (rosu.Calculate N s ⟨w, []⟩).2.trace = 1
    ∧ calls .score_params_destroy (rosu.Calculate N s ⟨w, []⟩).2.trace = 1
    ∧ (rosu.Calculate N s ⟨w, []⟩).2.trace.getLast?
        = some (.score_params_destroy (N.score_params_new nil w).2.1)
    ∧ (∀ c ∈ (rosu.Calculate N s ⟨w, []⟩).2.trace.dropLast,
        c.fn ≠ .score_params_destroy) := by
  refine ⟨?_, ?_, ?_, ?_, ?_⟩
  · rw [setters_Calculate_ok N rosu s w hnew, Calculate_trace_ok N rosu s w hnew]
  · rw [calls_Calculate_ok N rosu s w hnew]
    simp [calls, setterCalls, List.countP_append, countP_guard, List.countP_cons,
      NativeCall.fn]
  · rw [calls_Calculate_ok N rosu s w hnew]
    simp [calls, setterCalls, List.countP_append, countP_guard, List.countP_cons,
      NativeCall.fn]
  · rw [Calculate_trace_concat N rosu s w hnew, List.getLast?_concat]
  · rw [Calculate_trace_concat N rosu s w hnew, List.dropLast_concat]
    intro c hc
    simp only [List.mem_cons, List.mem_append, List.not_mem_nil, or_false] at hc
    rcases hc with rfl | hc | rfl
    · simp [NativeCall.fn]
    · have := isSetter_of_mem_setterCalls _ _ _ hc
      intro hfn
      rw [hfn] at this
      simp [Fn.isSetter] at this
    · simp [NativeCall.fn]

/-- C6: at the failing input, a nil `score` pointer, on the stand-in library
with `score_params_new` succeeding.  The call panics, `score_params_new` is
the only native call, `score_params_destroy` is never called, and the
parameters created under handle `1` are still live in the native world. -/
theorem C6_nil_score_leaks_params :
    (stub.score_params_new nil stubWorld).1 = 0
    ∧ (RosuCalculator.CalculatePtr stub ⟨7⟩ none ⟨stubWorld, []⟩).1 = .panicked
    ∧ (RosuCalculator.CalculatePtr stub ⟨7⟩ none ⟨stubWorld, []⟩).2.trace
        = [.score_params_new nil]
    ∧ calls .score_params_destroy
        (RosuCalculator.CalculatePtr stub ⟨7⟩ none ⟨stubWorld, []⟩).2.trace = 0
    ∧ (RosuCalculator.CalculatePtr stub ⟨7⟩ none ⟨stubWorld, []⟩).2.world.live
        = [(1, {})] := by
  refine ⟨by decide, rfl, rfl, by decide, rfl⟩

/-- C7, refuted: with `acc = -1.0`, a negative value, and `score_params_new`
succeeding, `Calculate` returns `ok = true`, and the calculation sees the
native default for `acc`. -/
theorem C7_negative_acc_accepted :
    Float64.minusOne.ltZero = true
    ∧ (RosuCalculator.Calculate stub ⟨7⟩ { onlyMode 0 with acc := Float64.minusOne }
        ⟨stubWorld, []⟩).1.2 = true
    ∧ (RosuCalculator.Calculate stub ⟨7⟩ { onlyMode 0 with acc := Float64.minusOne }
        ⟨stubWorld, []⟩).1.1.acc = none := by
  refine ⟨by decide, by decide, rfl⟩

/-- C7, amended: a negative `acc` or `clockRate` is not reported.  For every
`ScoreParams` whose `acc` is negative, `Calculate` returns `ok = false` only
when `score_params_new` returns a nonzero code, and `score_params_acc` is not
called, so the field stays at the native default; the same holds for
`clockRate` and `score_params_clock_rate`. -/
theorem C7_negative_fields_left_at_default [Inhabited R] (N : Native W R)
    (rosu : RosuCalculator) (s : ScoreParams) (w : W) :
    (s.acc.ltZero = true →
      ((rosu.Calculate N s ⟨w, []⟩).1.2 = false ↔ (N.score_params_new nil w).1 ≠ 0)
      ∧ calls .score_params_acc (rosu.Calculate N s ⟨w, []⟩).2.trace = 0)
    ∧ (s.clockRate.ltZero = true →
      ((rosu.Calculate N s ⟨w, []⟩).1.2 = false ↔ (N.score_params_new nil w).1 ≠ 0)
      ∧ calls .score_params_clock_rate (rosu.Calculate N s ⟨w, []⟩).2.trace = 0) := by
  by_cases h : (N.score_params_new nil w).1 = 0
  · refine ⟨fun ha => ⟨by simp [Calculate_ok N rosu s ⟨w, []⟩ h, h], ?_⟩,
      fun hc => ⟨by simp [Calculate_ok N rosu s ⟨w, []⟩ h, h], ?_⟩⟩
    · have := calls_field_setterCalls (N.score_params_new nil w).2.1 s .acc
      simp only [Field.setter, ScoreParams.positive, Float64.gtZero_of_ltZero _ ha] at this
      rw [calls_Calculate_ok N rosu s w h, this]
      simp
    · have := calls_field_setterCalls (N.score_params_new nil w).2.1 s .clockRate
      simp only [Field.setter, ScoreParams.positive, Float64.gtZero_of_ltZero _ hc] at this
      rw [calls_Calculate_ok N rosu s w h, this]
      simp
  · refine ⟨fun _ => ⟨by simp [Calculate_fail N rosu s ⟨w, []⟩ h, h], ?_⟩,
      fun _ => ⟨by simp [Calculate_fail N rosu s ⟨w, []⟩ h, h], ?_⟩⟩ <;>
      simp [Calculate_fail N rosu s ⟨w, []⟩ h, calls, List.countP_cons, NativeCall.fn]

/-- C7 amended, on the stand-in library with `acc = -1.0`: `ok` is true and
`score_params_acc` is not called. -/
theorem C7_negative_fields_left_at_default_witness :
    ({ onlyMode 0 with acc := Float64.minusOne } : ScoreParams).acc.ltZero = true
    ∧ calls .score_params_acc
        (RosuCalculator.Calculate stub ⟨7⟩ { onlyMode 0 with acc := Float64.minusOne }
          ⟨stubWorld, []⟩).2.trace = 0 :=
  ⟨by decide,
    ((C7_negative_fields_left_at_default stub ⟨7⟩ { onlyMode 0 with acc := Float64.minusOne }
      stubWorld).1 (by decide)).2⟩

/-- C8: mode is always forwarded, every other forwarded field carries its own
value.  With all integer fields below `2 ^ 32` and `score_params_new`
succeeding, `score_params_mode` is called exactly once, with `score.mode`,
whatever the mode, and it is the first setter call; for each field among mods,
acc, n300, n100, n50, combo, nMisses, nKatu and clockRate that is `> 0`, the
setter of the field is called exactly once, with the value of the field.  The
score of `main`, `{mode: 3, acc: 95, mods: 0}`, gives exactly the setter calls
`mode(3)`, `acc(95)`. -/
theorem C8_mode_always_forwarded [Inhabited R] (N : Native W R) (rosu : RosuCalculator)
    (s : ScoreParams) (w : W) (hnew : (N.score_params_new nil w).1 = 0)
    (hlt : s.below32) :
    calls .score_params_mode (rosu.Calculate N s ⟨w, []⟩).2.trace = 1
    ∧ (setters (rosu.Calculate N s ⟨w, []⟩).2.trace).head?
        = some (.score_params_mode (N.score_params_new nil w).2.1 s.mode)
    ∧ (∀ f : Field, f ≠ .passedObjects → s.positive f = true →
        s.ownCall (N.score_params_new nil w).2.1 f ∈ (rosu.Calculate N s ⟨w, []⟩).2.trace
        ∧ calls f.setter (rosu.Calculate N s ⟨w, []⟩).2.trace = 1)
    ∧ setters (rosu.Calculate N mainScore ⟨w, []⟩).2.trace
        = [.score_params_mode (N.score_params_new nil w).2.1 3,
           .score_params_acc (N.score_params_new nil w).2.1 Float64.ninetyFive] := by
  refine ⟨?_, ?_, fun f hf hp => ⟨?_, ?_⟩, ?_⟩
  · rw [calls_Calculate_ok N rosu s w hnew, calls_mode_setterCalls]
    simp
  · rw [setters_Calculate_ok N rosu s w hnew]
    have hm : C.mode s.mode = s.mode := Nat.mod_eq_of_lt hlt.1
    simp [setterCalls, hm]
  · rw [Calculate_trace_ok N rosu s w hnew, ← wrappedCall_eq_ownCall _ s f hlt]
    exact List.mem_cons_of_mem _
      (List.mem_append_left _ (wrappedCall_mem_setterCalls _ s f hf hp))
  · rw [calls_Calculate_ok N rosu s w hnew, calls_field_setterCalls, hp]
    cases f <;> simp [Field.setter]
  · rw [setters_Calculate_ok N rosu mainScore w hnew]
    rfl

/-- C8, on the stand-in library with the score of `main`: the setter calls
are `mode(3)` and `acc(95)`. -/
theorem C8_mode_always_forwarded_witness :
    (stub.score_params_new nil stubWorld).1 = 0
    ∧ mainScore.below32
    ∧ setters (RosuCalculator.Calculate stub ⟨7⟩ mainScore ⟨stubWorld, []⟩).2.trace
        = [.score_params_mode (stub.score_params_new nil stubWorld).2.1 3,
           .score_params_acc (stub.score_params_new nil stubWorld).2.1 Float64.ninetyFive] :=
  ⟨by decide, by unfold ScoreParams.below32; decide,
    (C8_mode_always_forwarded stub ⟨7⟩ mainScore stubWorld (by decide)
      (by unfold ScoreParams.below32; decide)).2.2.2⟩

/-- C9: integer fields are forwarded modulo `2 ^ 32`.  When
`score_params_new` succeeds, for each field among mods, n300, n100, n50, combo,
nMisses and nKatu whose value `v` is `> 0` (the guard is on `v` itself), the
setter of the field is called exactly once, with `v % 2 ^ 32`.  With
`n300 = 2 ^ 32` the guard passes and `score_params_n300` is called with `0`. -/
theorem C9_count_fields_wrap [Inhabited R] (N : Native W R) (rosu : RosuCalculator)
    (s : ScoreParams) (w : W) (hnew : (N.score_params_new nil w).1 = 0) :
    (∀ f ∈ [Field.mods, .n300, .n100, .n50, .combo, .nMisses, .nKatu],
      s.positive f = true →
        s.wrappedCall (N.score_params_new nil w).2.1 f
          ∈ (rosu.Calculate N s ⟨w, []⟩).2.trace
        ∧ calls f.setter (rosu.Calculate N s ⟨w, []⟩).2.trace = 1)
    ∧ (s.n300 = 2 ^ 32 →
        s.positive .n300 = true
        ∧ NativeCall.score_params_n300 (N.score_params_new nil w).2.1 0
          ∈ (rosu.Calculate N s ⟨w, []⟩).2.trace
        ∧ calls .score_params_n300 (rosu.Calculate N s ⟨w, []⟩).2.trace = 1) := by
  have main : ∀ f : Field, f ≠ .passedObjects → s.positive f = true →
      s.wrappedCall (N.score_params_new nil w).2.1 f
        ∈ (rosu.Calculate N s ⟨w, []⟩).2.trace
      ∧ calls f.setter (rosu.Calculate N s ⟨w, []⟩).2.trace = 1 := by
    intro f hf hp
    refine ⟨?_, ?_⟩
    · rw [Calculate_trace_ok N rosu s w hnew]
      exact List.mem_cons_of_mem _
        (List.mem_append_left _ (wrappedCall_mem_setterCalls _ s f hf hp))
    · rw [calls_Calculate_ok N rosu s w hnew, calls_field_setterCalls, hp]
      cases f <;> simp [Field.setter]
  refine ⟨fun f hf hp => main f ?_ hp, fun h => ?_⟩
  · intro hpo
    rw [hpo] at hf
    simp at hf
  · have hp : s.positive .n300 = true := by simp [ScoreParams.positive, h]
    have := main .n300 (by decide) hp
    simp only [ScoreParams.wrappedCall, h, Nat.mod_self, Field.setter] at this
    exact ⟨hp, this⟩

/-- C9, on the stand-in library with `n300 = 2 ^ 32`: the native `n300` is
set to `0`. -/
theorem C9_count_fields_wrap_witness :
    (stub.score_params_new nil stubWorld).1 = 0
    ∧ ({ onlyMode 0 with n300 := 2 ^ 32 } : ScoreParams).n300 = 2 ^ 32
    ∧ NativeCall.score_params_n300 (stub.score_params_new nil stubWorld).2.1 0
        ∈ (RosuCalculator.Calculate stub ⟨7⟩ { onlyMode 0 with n300 := 2 ^ 32 }
            ⟨stubWorld, []⟩).2.trace
    ∧ (RosuCalculator.Calculate stub ⟨7⟩ { onlyMode 0 with n300 := 2 ^ 32 }
        ⟨stubWorld, []⟩).1.1.n300 = some 0 :=
  ⟨by decide, rfl,
    ((C9_count_fields_wrap stub ⟨7⟩ { onlyMode 0 with n300 := 2 ^ 32 } stubWorld
      (by decide)).2 rfl).2.1, rfl⟩

/-- C10: `Destroy` leaves the caller's handle unchanged.  The caller's
variable `c` lives at address `a` of the memory `m`, and `c.Destroy()` is
`Destroy` called on the value read there.  The call hands that value to
`calculator_destroy`; what the native function leaves behind its pointer
argument is stored in the receiver's own variable, at a new address; at `a`
the memory holds the same pointer as before, non-nil if it was non-nil.  A
second `c.Destroy()` therefore hands the same pointer to `calculator_destroy`
again, and a later `c.Calculate` hands it to `calculator_calculate`. -/
theorem C10_Destroy_leaves_handle [Inhabited R] (N : Native W R) (m : Heap) (a : Nat)
    (s : ScoreParams) (w : W) (ha : a < m.cells.length) :
    (RosuCalculator.Destroy N ⟨m.read a⟩ m ⟨w, []⟩).2.trace
      = [.calculator_destroy (m.read a)]
    ∧ (RosuCalculator.Destroy N ⟨m.read a⟩ m ⟨w, []⟩).1.read a = m.read a
    ∧ (m.read a ≠ nil → (RosuCalculator.Destroy N ⟨m.read a⟩ m ⟨w, []⟩).1.read a ≠ nil)
    ∧ (RosuCalculator.Destroy N ⟨m.read a⟩ m ⟨w, []⟩).1.read m.cells.length
        = (N.calculator_destroy (m.read a) w).1
    ∧ (RosuCalculator.Destroy N
          ⟨(RosuCalculator.Destroy N ⟨m.read a⟩ m ⟨w, []⟩).1.read a⟩
          (RosuCalculator.Destroy N ⟨m.read a⟩ m ⟨w, []⟩).1
          (RosuCalculator.Destroy N ⟨m.read a⟩ m ⟨w, []⟩).2).2.trace
        = [.calculator_destroy (m.read a), .calculator_destroy (m.read a)]
    ∧ ((N.score_params_new nil (N.calculator_destroy (m.read a) w).2).1 = 0 →
        (RosuCalculator.Calculate N
            ⟨(RosuCalculator.Destroy N ⟨m.read a⟩ m ⟨w, []⟩).1.read a⟩ s
            (RosuCalculator.Destroy N ⟨m.read a⟩ m ⟨w, []⟩).2).2.trace.filter
            (fun x => x.fn == .calculator_destroy || x.fn == .calculator_calculate)
          = [.calculator_destroy (m.read a),
             .calculator_calculate (m.read a)
               (N.score_params_new nil (N.calculator_destroy (m.read a) w).2).2.1]) := by
  have hkeep : (RosuCalculator.Destroy N ⟨m.read a⟩ m ⟨w, []⟩).1.read a = m.read a := by
    rw [Destroy_eq]
    exact Heap.read_write_alloc m _ _ a ha
  refine ⟨?_, hkeep, fun hnn => ?_, ?_, ?_, fun h => ?_⟩
  · rw [Destroy_eq]
    rfl
  · rw [hkeep]
    exact hnn
  · rw [Destroy_eq]
    exact Heap.read_write_alloc_self m _ _
  · rw [hkeep, Destroy_eq, Destroy_eq]
    rfl
  · rw [hkeep, Destroy_eq]
    rw [Calculate_ok N ⟨m.read a⟩ s _ h]
    have hs : (setterCalls (N.score_params_new nil
          (N.calculator_destroy (m.read a) w).2).2.1 s).filter
        (fun x => x.fn == .calculator_destroy || x.fn == .calculator_calculate) = [] := by
      rw [List.filter_eq_nil_iff]
      intro x hx
      have := isSetter_of_mem_setterCalls _ _ _ hx
      cases hfn : x.fn <;> simp_all [Fn.isSetter]
    simp only [List.filter_append, hs]
    simp [NativeCall.fn]

/-- C10, on the stand-in library, whose `calculator_destroy` writes nil
through its pointer argument.  The caller's variable, at address 0, holds the
handle `7`; after `Destroy` it still holds `7`, the nil went to the receiver's
variable at address 1, and a second `Destroy` hands over `7` again. -/
theorem C10_Destroy_leaves_handle_witness :
    0 < (Heap.mk [7]).cells.length
    ∧ (Heap.mk [7]).read 0 ≠ nil
    ∧ (RosuCalculator.Destroy stub ⟨(Heap.mk [7]).read 0⟩ ⟨[7]⟩ ⟨stubWorld, []⟩).1
        = ⟨[7, nil]⟩
    ∧ (RosuCalculator.Destroy stub ⟨(Heap.mk [7]).read 0⟩ ⟨[7]⟩ ⟨stubWorld, []⟩).1.read 0
        = 7
    ∧ (RosuCalculator.Destroy stub
          ⟨(RosuCalculator.Destroy stub ⟨(Heap.mk [7]).read 0⟩ ⟨[7]⟩
              ⟨stubWorld, []⟩).1.read 0⟩
          (RosuCalculator.Destroy stub ⟨(Heap.mk [7]).read 0⟩ ⟨[7]⟩ ⟨stubWorld, []⟩).1
          (RosuCalculator.Destroy stub ⟨(Heap.mk [7]).read 0⟩ ⟨[7]⟩
              ⟨stubWorld, []⟩).2).2.trace
        = [.calculator_destroy 7, .calculator_destroy 7] :=
  ⟨by decide, by decide, rfl,
    (C10_Destroy_leaves_handle stub ⟨[7]⟩ 0 mainScore stubWorld (by decide)).2.1.trans rfl,
    (C10_Destroy_leaves_handle stub ⟨[7]⟩ 0 mainScore stubWorld (by decide)).2.2.2.2.1.trans
      rfl⟩

end Claims

end RosuPP
